import Mathlib

/-!
Shallow embedding of the UniFi controller client wrapper
(`src/shared/unifi_client.py` of the unifi-toolkit repository) and proofs
about its specified behaviour.

Modelling conventions:
- Python strings are Lean `String`; `str.lower()` and single-character
  `str.replace` are character-wise maps (the client only lowercases and
  substitutes single ASCII characters).
- Optional JSON fields are `Option` values; Python truthiness of a string
  (`None` and `""` are falsy) is made explicit.
- Numeric rates are exact rationals; Python `round` is round-half-to-even.
- Network I/O is an oracle: each operation takes an environment record
  holding the HTTP status (`none` meaning the request raised) and response
  body that the controller would deliver.  Exceptions in the Python code
  correspond to `Except.error` values; `try`/`except` blocks that swallow
  an exception into a return value are modelled by the corresponding total
  branch.
- Python dicts are association lists with insert-or-overwrite semantics
  preserving first-insertion order, matching dict iteration order.
-/

/-- Python `s.lower()`, character-wise; `Char.toLower` matches CPython on
the ASCII range, which covers MAC addresses and all literals in the client. -/
def pyLower (s : String) : String := ⟨s.data.map Char.toLower⟩

/-- Python single-character `s.replace(old, new)`, character-wise. -/
def pyReplace (old new : Char) (s : String) : String :=
  ⟨s.data.map (fun c => if c = old then new else c)⟩

/-- MAC canonicalization as written inline at its use sites in the source:
`mac.lower().replace("-", ":").replace(".", ":")`. -/
def normalizeMac (s : String) : String :=
  pyReplace '.' ':' (pyReplace '-' ':' (pyLower s))

/-- Python truthiness of an optional string: `None` and `""` are falsy. -/
def pyTruthyStr : Option String → Bool
  | none => false
  | some s => s != ""

/-- Python `a or b` for an optional string `a` and a fallback `b`:
the value of `a` when it is truthy, otherwise `b`. -/
def pyStrOr (a : Option String) (b : String) : String :=
  match a with
  | some s => if s = "" then b else s
  | none => b

/-- Python `round(q)` to an integer: round half to even, on exact rationals. -/
def pyRoundInt (q : ℚ) : ℤ :=
  if q - ⌊q⌋ < 1/2 then ⌊q⌋
  else if (1 : ℚ)/2 < q - ⌊q⌋ then ⌊q⌋ + 1
  else if ⌊q⌋ % 2 = 0 then ⌊q⌋ else ⌊q⌋ + 1

/-- Python `round(q, 1)`: one decimal place. -/
def pyRound1 (q : ℚ) : ℚ := (pyRoundInt (q * 10) : ℚ) / 10

-- Character-level facts about the normalizer.

theorem char_toNat_ofNat_valid (n : Nat) (h : n.isValidChar) :
    (Char.ofNat n).toNat = n := by
  simp [Char.ofNat, dif_pos h, Char.ofNatAux, Char.toNat, UInt32.toNat,
    BitVec.toNat_ofNatLt]

theorem char_toLower_toLower (c : Char) : (Char.toLower c).toLower = c.toLower := by
  unfold Char.toLower
  by_cases h : c.toNat ≥ 65 ∧ c.toNat ≤ 90
  · simp only [if_pos h]
    have hv : (c.toNat + 32).isValidChar := by
      left
      omega
    rw [char_toNat_ofNat_valid _ hv]
    rw [if_neg]
    omega
  · simp [if_neg h, h]

theorem pyLower_idem (s : String) : pyLower (pyLower s) = pyLower s := by
  unfold pyLower
  cases s with
  | mk data =>
    simp [List.map_map, Function.comp_def, char_toLower_toLower]

/-- The composite character transform performed by `normalizeMac`. -/
def normChar (c : Char) : Char :=
  let l := Char.toLower c
  let d := if l = '-' then ':' else l
  if d = '.' then ':' else d

theorem normalizeMac_eq_map (s : String) :
    normalizeMac s = ⟨s.data.map normChar⟩ := by
  unfold normalizeMac pyReplace pyLower normChar
  cases s with
  | mk data => simp [List.map_map, Function.comp_def]

theorem normChar_idem (c : Char) : normChar (normChar c) = normChar c := by
  unfold normChar
  by_cases h1 : Char.toLower c = '-'
  · simp [h1]
  · by_cases h2 : Char.toLower c = '.'
    · simp [h1, h2]
    · simp only [if_neg h1, if_neg h2]
      rw [char_toLower_toLower c]
      simp [h1, h2]

theorem map_normChar_idem : ∀ l : List Char,
    (l.map normChar).map normChar = l.map normChar
  | [] => rfl
  | c :: l => by
    rw [List.map_cons, List.map_cons, normChar_idem c, map_normChar_idem l]

theorem normalizeMac_idem (s : String) :
    normalizeMac (normalizeMac s) = normalizeMac s := by
  rw [normalizeMac_eq_map s, normalizeMac_eq_map ⟨s.data.map normChar⟩]
  exact congrArg String.mk (map_normChar_idem s.data)

/-- Claim C9: the MAC normalization used throughout the client (lowercase,
then replace every `-` and every `.` by `:`) is idempotent, and the mixed
case dash form, the dot form and the colon form of one address all
normalize to the canonical lowercase colon form. -/
theorem normalizeMac_contract :
    (∀ s : String, normalizeMac (normalizeMac s) = normalizeMac s) ∧
    normalizeMac "AA-BB-CC-DD-EE-FF" = "aa:bb:cc:dd:ee:ff" ∧
    normalizeMac "aa.bb.cc.dd.ee.ff" = "aa:bb:cc:dd:ee:ff" ∧
    normalizeMac "aa:bb:cc:dd:ee:ff" = "aa:bb:cc:dd:ee:ff" :=
  ⟨normalizeMac_idem, rfl, rfl, rfl⟩

-- The client data model.

/-- A raw station record as delivered in the `data` list of `GET stat/sta`
(the JSON fields the client reads; absent keys are `none`). -/
structure RawClient where
  mac : Option String := none
  ap_mac : Option String := none
  ip : Option String := none
  last_seen : Option Nat := none
  rssi : Option Int := none
  hostname : Option String := none
  name : Option String := none
  tx_rate : Option ℚ := none
  rx_rate : Option ℚ := none
  channel : Option Nat := none
  radio : Option String := none
  uptime : Option Nat := none
  tx_bytes : Option Nat := none
  rx_bytes : Option Nat := none
  blocked : Option Bool := none
deriving DecidableEq

/-- The simplified per-client dictionary value built by `get_clients`. -/
structure ClientRecord where
  mac : String
  ap_mac : Option String
  ip : Option String
  last_seen : Option Nat
  rssi : Option Int
  hostname : Option String
  name : Option String
  tx_rate : Option ℚ
  rx_rate : Option ℚ
  channel : Option Nat
  radio : Option String
  uptime : Option Nat
  tx_bytes : Option Nat
  rx_bytes : Option Nat
  blocked : Bool
deriving DecidableEq

/-- A raw device record as delivered in the `data` list of `GET stat/device`. -/
structure RawDevice where
  mac : Option String := none
  name : Option String := none
  model : Option String := none
  type_ : Option String := none
deriving DecidableEq

/-- The per-access-point dictionary value built by `get_access_points`. -/
structure APRecord where
  mac : String
  name : Option String := none
  model : Option String := none
  type_ : Option String := none
deriving DecidableEq

/-- Insertion into a Python dict rendered as an association list: an
existing key keeps its position and receives the new value, a new key is
appended at the end. -/
def dictInsert (k : String) (v : α) : List (String × α) → List (String × α)
  | [] => [(k, v)]
  | (k', v') :: rest =>
    if k' = k then (k, v) :: rest else (k', v') :: dictInsert k v rest

/-- Python `d.get(k)` on the association-list rendering of a dict. -/
def dictGet (k : String) (d : List (String × α)) : Option α :=
  (d.find? (fun p => p.1 == k)).map (·.2)

/-- The key list of a dict. -/
def dictKeys (d : List (String × α)) : List String := d.map (·.1)

-- The client state and connection lifecycle.

/-- The aiohttp session owned by the client, reduced to the transport
headers it carries (the API-key header when one was configured). -/
structure Session where
  headers : List (String × String)
deriving DecidableEq

/-- The aiounifi controller object created in the legacy branch of
`connect`, reduced to the construction arguments the client passes. -/
structure LegacyController where
  host : String
  username : Option String
  password : Option String
  site : String
deriving DecidableEq

/-- The mutable state of one `UniFiClient` instance. -/
structure UniFiClient where
  host : String
  username : Option String
  password : Option String
  api_key : Option String
  site : String
  verify_ssl : Bool
  controller : Option LegacyController
  session : Option Session
  is_unifi_os : Bool
deriving DecidableEq

/-- `UniFiClient.__init__`: stores the endpoint data, starts with no
controller and no session, and fixes `is_unifi_os` to whether an API key
is present (`api_key is not None`). -/
def UniFiClient.init (host : String) (username password api_key : Option String)
    (site : String := "default") (verify_ssl : Bool := false) : UniFiClient :=
  { host := host, username := username, password := password,
    api_key := api_key, site := site, verify_ssl := verify_ssl,
    controller := none, session := none, is_unifi_os := api_key.isSome }

/-- `UniFiClient.disconnect`: closes the session when one is open and
clears both the session and the controller reference; a no-op on a
never-connected or already-disconnected instance. -/
def UniFiClient.disconnect (c : UniFiClient) : UniFiClient :=
  { c with session := none, controller := none }

/-- Environment oracle for one `connect()` call: the HTTP status of the
ControllerOS probe request (`none` when the request raised a network
error), and whether the aiounifi `login()` handshake succeeded (`false`
when it raised). -/
structure ConnectNet where
  osProbeStatus : Option Nat
  legacyLoginOk : Bool
deriving DecidableEq

/-- The request headers `connect` installs on the aiohttp session:
`X-API-KEY` is added only when `self.api_key` is truthy. -/
def connectHeaders (api_key : Option String) : List (String × String) :=
  match api_key with
  | some k => if k = "" then [] else [("X-API-KEY", k)]
  | none => []

/-- `UniFiClient.connect`: opens an aiohttp session, then either probes
`/proxy/network/api/s/{site}/stat/device` with the API key (ControllerOS)
or constructs an aiounifi controller and performs its login handshake
(legacy).  Any failure is swallowed: the method disconnects and returns
`false`; on success it returns `true`. -/
def UniFiClient.connect (net : ConnectNet) (c : UniFiClient) : Bool × UniFiClient :=
  let copen : UniFiClient := { c with session := some ⟨connectHeaders c.api_key⟩ }
  if copen.is_unifi_os then
    match net.osProbeStatus with
    | none => (false, copen.disconnect)
    | some st => if st ≠ 200 then (false, copen.disconnect) else (true, copen)
  else
    let ctrl : LegacyController := ⟨copen.host, copen.username, copen.password, copen.site⟩
    let clog : UniFiClient := { copen with controller := some ctrl }
    if net.legacyLoginOk then (true, clog) else (false, clog.disconnect)

/-- The condition under which `connect` fails: in ControllerOS mode the
probe did not answer 200 (it raised, or returned any other status); in
legacy mode the login handshake raised. -/
def connectFails (net : ConnectNet) (c : UniFiClient) : Prop :=
  if c.is_unifi_os then net.osProbeStatus ≠ some 200
  else net.legacyLoginOk = false

/-- Claim C1: `connect` reports every failure (network error during the
probe, non-success probe status, login handshake error) as the boolean
`false` rather than an exception, and whenever it returns `false` the
session and controller fields are cleared, exactly as on a never-connected
instance; no half-open session is reachable. -/
theorem connect_failure_contract (net : ConnectNet) (c : UniFiClient) :
    ((UniFiClient.connect net c).1 = false ↔ connectFails net c) ∧
    ((UniFiClient.connect net c).1 = false →
      (UniFiClient.connect net c).2.session = none ∧
      (UniFiClient.connect net c).2.controller = none ∧
      (UniFiClient.connect net c).2.session =
        (UniFiClient.init c.host c.username c.password c.api_key c.site
          c.verify_ssl).session) := by
  unfold UniFiClient.connect connectFails UniFiClient.disconnect UniFiClient.init
  by_cases hos : c.is_unifi_os
  · simp only [hos, if_true]
    cases hst : net.osProbeStatus with
    | none => simp
    | some st =>
      by_cases h200 : st = 200
      · simp [h200]
      · simp [h200]
  · simp only [hos]
    cases hlog : net.legacyLoginOk
    · simp
    · simp

-- HTTP requests and operation errors.

/-- An outgoing interaction with the controller: a direct HTTP request
with its url (and payload for writes), or one of the aiounifi
handshake-managed operations used in the legacy branch. -/
inductive Request where
  | get (url : String)
  | post (url : String) (payload : List (String × String))
  | put (url : String) (payload : List (String × String))
  | aioLogin
  | aioInit
deriving DecidableEq

/-- The exceptions an operation can let escape: the not-connected guard,
the missing-controller guard, a non-success controller status, and a
network error raised by the transport. -/
inductive OpError where
  | notConnected
  | controllerNone
  | apiError (status : Nat)
  | netError (msg : String)
deriving DecidableEq

/-- The `str(e)` rendering of an operation error, as interpolated into
the failure message of `test_connection`. -/
def OpError.message : OpError → String
  | .notConnected => "Not connected to UniFi controller. Call connect() first."
  | .controllerNone => "Controller not initialized"
  | .apiError st => "API request failed: " ++ toString st
  | .netError m => m

-- Device Directory: get_clients.

/-- The inline rate conversion in `get_clients`:
`round(rate / 1000, 1) if rate else None`. -/
def rateToMbps : Option ℚ → Option ℚ
  | none => none
  | some k => if k = 0 then none else some (pyRound1 (k / 1000))

/-- The simplified dictionary value `get_clients` builds for one raw
record, keyed by the lowercased raw MAC `mac`. -/
def rawToClientRecord (mac : String) (r : RawClient) : ClientRecord :=
  { mac := mac
    ap_mac := r.ap_mac
    ip := r.ip
    last_seen := r.last_seen
    rssi := r.rssi
    hostname := r.hostname
    name := r.name
    tx_rate := rateToMbps r.tx_rate
    rx_rate := rateToMbps r.rx_rate
    channel := r.channel
    radio := r.radio
    uptime := r.uptime
    tx_bytes := r.tx_bytes
    rx_bytes := r.rx_bytes
    blocked := r.blocked.getD false }

/-- One iteration of the `for client in clients_list` loop of
`get_clients`: lowercase the raw MAC, skip the record when the MAC is
falsy, otherwise store the converted record under it. -/
def clientsStep (acc : List (String × ClientRecord)) (r : RawClient) :
    List (String × ClientRecord) :=
  let mac := pyLower (r.mac.getD "")
  if mac = "" then acc else dictInsert mac (rawToClientRecord mac r) acc

/-- The dictionary `get_clients` builds from the raw `data` list under the
ControllerOS protocol. -/
def buildClientsDict (raws : List RawClient) : List (String × ClientRecord) :=
  raws.foldl clientsStep []

/-- Environment oracle for one `get_clients` call: the status and body of
the ControllerOS `GET stat/sta` (status `none` when the request raised),
and the outcome of the aiounifi `initialize()` plus its client table in
the legacy branch (`Except.error` when it raised). -/
structure ClientsEnv where
  status : Option Nat
  rawData : List RawClient
  legacy : Except String (List (String × ClientRecord))

/-- `UniFiClient.get_clients`: raises the not-connected guard before any
I/O; in ControllerOS mode issues `GET {host}/proxy/network/api/s/{site}/stat/sta`
and converts the body, re-raising transport and non-200 failures; in
legacy mode runs `controller.initialize()` and returns the client table.
The second component is the trace of controller interactions issued. -/
def UniFiClient.get_clients (env : ClientsEnv) (c : UniFiClient) :
    Except OpError (List (String × ClientRecord)) × List Request :=
  if c.session.isNone then (.error .notConnected, [])
  else if c.is_unifi_os then
    let url := c.host ++ "/proxy/network/api/s/" ++ c.site ++ "/stat/sta"
    match env.status with
    | none => (.error (.netError "request raised"), [.get url])
    | some st =>
      if st ≠ 200 then (.error (.apiError st), [.get url])
      else (.ok (buildClientsDict env.rawData), [.get url])
  else
    match c.controller with
    | none => (.error .controllerNone, [])
    | some _ =>
      match env.legacy with
      | .error e => (.error (.netError e), [.aioInit])
      | .ok table => (.ok table, [.aioInit])

/-- `UniFiClient.get_client_by_mac`: fetch all clients, then look up the
normalized (lowercase, colon-separated) MAC; a miss is an explicit `none`. -/
def UniFiClient.get_client_by_mac (env : ClientsEnv) (c : UniFiClient)
    (mac_address : String) : Except OpError (Option ClientRecord) :=
  match (c.get_clients env).1 with
  | .error e => .error e
  | .ok clients => .ok (dictGet (normalizeMac mac_address) clients)

-- Device Directory: get_access_points.

/-- One iteration of the `for device in devices_list` loop of
`get_access_points`: keep only devices whose reported type is `uap`,
lowercase the raw MAC, skip falsy MACs, store name/model/type. -/
def apsStep (acc : List (String × APRecord)) (r : RawDevice) :
    List (String × APRecord) :=
  if r.type_ == some "uap" then
    let mac := pyLower (r.mac.getD "")
    if mac = "" then acc
    else dictInsert mac ⟨mac, r.name, r.model, r.type_⟩ acc
  else acc

/-- The dictionary `get_access_points` builds from the raw `data` list
under the ControllerOS protocol. -/
def buildApsDict (raws : List RawDevice) : List (String × APRecord) :=
  raws.foldl apsStep []

/-- Environment oracle for one `get_access_points` call, analogous to
`ClientsEnv` for the ControllerOS `GET stat/device` and the legacy device
table. -/
structure ApsEnv where
  status : Option Nat
  rawData : List RawDevice
  legacy : Except String (List (String × APRecord))

/-- `UniFiClient.get_access_points`: raises the not-connected guard; in
ControllerOS mode issues `GET {host}/proxy/network/api/s/{site}/stat/device`
and keeps only access points; in legacy mode runs `controller.initialize()`
and returns the device table.  The second component is the trace. -/
def UniFiClient.get_access_points (env : ApsEnv) (c : UniFiClient) :
    Except OpError (List (String × APRecord)) × List Request :=
  if c.session.isNone then (.error .notConnected, [])
  else if c.is_unifi_os then
    let url := c.host ++ "/proxy/network/api/s/" ++ c.site ++ "/stat/device"
    match env.status with
    | none => (.error (.netError "request raised"), [.get url])
    | some st =>
      if st ≠ 200 then (.error (.apiError st), [.get url])
      else (.ok (buildApsDict env.rawData), [.get url])
  else
    match c.controller with
    | none => (.error .controllerNone, [])
    | some _ =>
      match env.legacy with
      | .error e => (.error (.netError e), [.aioInit])
      | .ok table => (.ok table, [.aioInit])

/-- `UniFiClient.get_ap_name_by_mac`: fetch the access points and resolve
a friendly label via the chain name, then model, then the normalized MAC;
any exception from the fetch is caught and the raw input MAC is returned. -/
def UniFiClient.get_ap_name_by_mac (env : ApsEnv) (c : UniFiClient)
    (ap_mac : String) : String :=
  match (c.get_access_points env).1 with
  | .error _ => ap_mac
  | .ok aps =>
    let normalized := normalizeMac ap_mac
    match dictGet normalized aps with
    | some ap => pyStrOr ap.name (pyStrOr ap.model normalized)
    | none => normalized

-- Dictionary lemmas.

theorem dictInsert_nil (k : String) (v : α) : dictInsert k v [] = [(k, v)] := rfl

theorem dictInsert_cons (k : String) (v : α) (k' : String) (v' : α)
    (rest : List (String × α)) :
    dictInsert k v ((k', v') :: rest) =
      if k' = k then (k, v) :: rest else (k', v') :: dictInsert k v rest := rfl

theorem mem_dictKeys_dictInsert (k : String) (v : α) (m : String) :
    ∀ d : List (String × α),
      (m ∈ dictKeys (dictInsert k v d) ↔ m = k ∨ m ∈ dictKeys d)
  | [] => by simp [dictInsert_nil, dictKeys]
  | (k', v') :: rest => by
    rw [dictInsert_cons]
    by_cases hk : k' = k
    · rw [if_pos hk]
      subst hk
      simp only [dictKeys, List.map_cons, List.mem_cons]
      tauto
    · rw [if_neg hk]
      simp only [dictKeys, List.map_cons, List.mem_cons]
      have ih := mem_dictKeys_dictInsert k v m rest
      simp only [dictKeys] at ih
      rw [ih]
      tauto

theorem nodup_dictKeys_dictInsert (k : String) (v : α) :
    ∀ d : List (String × α),
      (dictKeys d).Nodup → (dictKeys (dictInsert k v d)).Nodup
  | [], _ => by simp [dictInsert_nil, dictKeys]
  | (k', v') :: rest, h => by
    simp only [dictKeys, List.map_cons, List.nodup_cons] at h
    rw [dictInsert_cons]
    by_cases hk : k' = k
    · rw [if_pos hk]
      subst hk
      simp only [dictKeys, List.map_cons, List.nodup_cons]
      exact ⟨h.1, h.2⟩
    · rw [if_neg hk]
      simp only [dictKeys, List.map_cons, List.nodup_cons]
      refine ⟨?_, nodup_dictKeys_dictInsert k v rest h.2⟩
      intro hmem
      rcases (mem_dictKeys_dictInsert k v k' rest).1 hmem with h1 | h2
      · exact hk h1
      · exact h.1 h2

theorem mem_dictInsert (k : String) (v : α) (p : String × α) :
    ∀ d : List (String × α),
      p ∈ dictInsert k v d → p = (k, v) ∨ p ∈ d
  | [] => by
    rw [dictInsert_nil]
    simp
  | (k', v') :: rest => by
    rw [dictInsert_cons]
    by_cases hk : k' = k
    · rw [if_pos hk]
      simp only [List.mem_cons]
      tauto
    · rw [if_neg hk]
      simp only [List.mem_cons]
      intro h
      rcases h with h1 | h2
      · exact Or.inr (Or.inl h1)
      · rcases mem_dictInsert k v p rest h2 with h3 | h4
        · exact Or.inl h3
        · exact Or.inr (Or.inr h4)

-- Facts about the dictionary-building loops.

theorem clients_foldl_nodup :
    ∀ (raws : List RawClient) (acc : List (String × ClientRecord)),
      (dictKeys acc).Nodup → (dictKeys (raws.foldl clientsStep acc)).Nodup
  | [], _, h => h
  | r :: raws, acc, h => by
    rw [List.foldl_cons]
    apply clients_foldl_nodup raws
    unfold clientsStep
    by_cases hm : pyLower (r.mac.getD "") = ""
    · simpa [hm] using h
    · simpa [hm] using nodup_dictKeys_dictInsert _ _ acc h

theorem clients_foldl_mem :
    ∀ (raws : List RawClient) (acc : List (String × ClientRecord))
      (p : String × ClientRecord), p ∈ raws.foldl clientsStep acc →
      p ∈ acc ∨ ∃ r ∈ raws, pyLower (r.mac.getD "") ≠ "" ∧
        p = (pyLower (r.mac.getD ""), rawToClientRecord (pyLower (r.mac.getD "")) r)
  | [], _, _, h => Or.inl h
  | r :: raws, acc, p, h => by
    rw [List.foldl_cons] at h
    rcases clients_foldl_mem raws (clientsStep acc r) p h with h1 | ⟨r', hr', hm, hp⟩
    · unfold clientsStep at h1
      by_cases hm : pyLower (r.mac.getD "") = ""
      · rw [if_pos hm] at h1
        exact Or.inl h1
      · rw [if_neg hm] at h1
        rcases mem_dictInsert _ _ p acc h1 with h2 | h3
        · exact Or.inr ⟨r, List.mem_cons_self r raws, hm, h2⟩
        · exact Or.inl h3
    · exact Or.inr ⟨r', List.mem_cons_of_mem r hr', hm, hp⟩

theorem aps_foldl_nodup :
    ∀ (raws : List RawDevice) (acc : List (String × APRecord)),
      (dictKeys acc).Nodup → (dictKeys (raws.foldl apsStep acc)).Nodup
  | [], _, h => h
  | r :: raws, acc, h => by
    rw [List.foldl_cons]
    apply aps_foldl_nodup raws
    unfold apsStep
    by_cases ht : r.type_ == some "uap"
    · by_cases hm : pyLower (r.mac.getD "") = ""
      · simpa [ht, hm] using h
      · simpa [ht, hm] using nodup_dictKeys_dictInsert _ _ acc h
    · simpa [ht] using h

theorem aps_foldl_mem :
    ∀ (raws : List RawDevice) (acc : List (String × APRecord))
      (p : String × APRecord), p ∈ raws.foldl apsStep acc →
      p ∈ acc ∨ ∃ r ∈ raws, (r.type_ == some "uap") = true ∧
        pyLower (r.mac.getD "") ≠ "" ∧
        p = (pyLower (r.mac.getD ""),
             ⟨pyLower (r.mac.getD ""), r.name, r.model, r.type_⟩)
  | [], _, _, h => Or.inl h
  | r :: raws, acc, p, h => by
    rw [List.foldl_cons] at h
    rcases aps_foldl_mem raws (apsStep acc r) p h with h1 | ⟨r', hr', ht, hm, hp⟩
    · unfold apsStep at h1
      by_cases ht : r.type_ == some "uap"
      · rw [if_pos ht] at h1
        by_cases hm : pyLower (r.mac.getD "") = ""
        · rw [if_pos hm] at h1
          exact Or.inl h1
        · rw [if_neg hm] at h1
          rcases mem_dictInsert _ _ p acc h1 with h2 | h3
          · exact Or.inr ⟨r, List.mem_cons_self r raws, ht, hm, h2⟩
          · exact Or.inl h3
      · rw [if_neg ht] at h1
        exact Or.inl h1
    · exact Or.inr ⟨r', List.mem_cons_of_mem r hr', ht, hm, hp⟩

-- URL decomposition helper.

theorem url_split (host mid site tail : String) :
    host ++ mid ++ site ++ ("/" ++ tail) = (host ++ mid ++ site ++ "/") ++ tail := by
  simp [String.append_assoc]

-- Trace shapes of the two enumeration operations.

theorem get_clients_trace_os (env : ClientsEnv) (c : UniFiClient)
    (h : c.is_unifi_os = true) :
    (c.get_clients env).2 = [] ∨
    (c.get_clients env).2 =
      [.get (c.host ++ "/proxy/network/api/s/" ++ c.site ++ "/stat/sta")] := by
  unfold UniFiClient.get_clients
  by_cases hs : c.session.isNone
  · simp [hs]
  · cases henv : env.status with
    | none => simp [hs, h, henv]
    | some st =>
      by_cases h200 : st = 200 <;> simp [hs, h, henv, h200]

theorem get_clients_trace_legacy (env : ClientsEnv) (c : UniFiClient)
    (h : c.is_unifi_os = false) :
    (c.get_clients env).2 = [] ∨ (c.get_clients env).2 = [.aioInit] := by
  unfold UniFiClient.get_clients
  by_cases hs : c.session.isNone
  · simp [hs]
  · cases hctl : c.controller with
    | none => simp [hs, h, hctl]
    | some ctl =>
      cases hleg : env.legacy <;> simp [hs, h, hctl, hleg]

theorem get_access_points_trace_os (env : ApsEnv) (c : UniFiClient)
    (h : c.is_unifi_os = true) :
    (c.get_access_points env).2 = [] ∨
    (c.get_access_points env).2 =
      [.get (c.host ++ "/proxy/network/api/s/" ++ c.site ++ "/stat/device")] := by
  unfold UniFiClient.get_access_points
  by_cases hs : c.session.isNone
  · simp [hs]
  · cases henv : env.status with
    | none => simp [hs, h, henv]
    | some st =>
      by_cases h200 : st = 200 <;> simp [hs, h, henv, h200]

theorem get_access_points_trace_legacy (env : ApsEnv) (c : UniFiClient)
    (h : c.is_unifi_os = false) :
    (c.get_access_points env).2 = [] ∨
    (c.get_access_points env).2 = [.aioInit] := by
  unfold UniFiClient.get_access_points
  by_cases hs : c.session.isNone
  · simp [hs]
  · cases hctl : c.controller with
    | none => simp [hs, h, hctl]
    | some ctl =>
      cases hleg : env.legacy <;> simp [hs, h, hctl, hleg]

/-- Claim C2: on a client whose protocol flag reflects its credential kind
(as `__init__` establishes), every request issued by `get_clients` and
`get_access_points` under an API-key credential is a GET against the
ControllerOS base `{host}/proxy/network/api/s/{site}/`, and under a
username/password-only credential the operations touch only the aiounifi
handshake-managed tables, never a ControllerOS path. -/
theorem protocol_path_selection (c : UniFiClient) (cenv : ClientsEnv)
    (aenv : ApsEnv) (hcons : c.is_unifi_os = c.api_key.isSome) :
    (c.api_key.isSome = true →
      ∀ r ∈ (c.get_clients cenv).2 ++ (c.get_access_points aenv).2,
        ∃ tail, r =
          Request.get ((c.host ++ "/proxy/network/api/s/" ++ c.site ++ "/") ++ tail)) ∧
    (c.api_key = none →
      ∀ r ∈ (c.get_clients cenv).2 ++ (c.get_access_points aenv).2,
        r = Request.aioInit) := by
  constructor
  · intro hk r hr
    have hos : c.is_unifi_os = true := by rw [hcons]; exact hk
    rw [List.mem_append] at hr
    rcases hr with hr | hr
    · rcases get_clients_trace_os cenv c hos with h0 | h1
      · rw [h0] at hr
        simp at hr
      · rw [h1] at hr
        simp only [List.mem_singleton] at hr
        refine ⟨"stat/sta", ?_⟩
        rw [hr]
        have hlit : ("/stat/sta" : String) = "/" ++ "stat/sta" := rfl
        rw [hlit, url_split]
    · rcases get_access_points_trace_os aenv c hos with h0 | h1
      · rw [h0] at hr
        simp at hr
      · rw [h1] at hr
        simp only [List.mem_singleton] at hr
        refine ⟨"stat/device", ?_⟩
        rw [hr]
        have hlit : ("/stat/device" : String) = "/" ++ "stat/device" := rfl
        rw [hlit, url_split]
  · intro hk r hr
    have hos : c.is_unifi_os = false := by rw [hcons, hk]; rfl
    rw [List.mem_append] at hr
    rcases hr with hr | hr
    · rcases get_clients_trace_legacy cenv c hos with h0 | h1
      · rw [h0] at hr
        simp at hr
      · rw [h1] at hr
        simpa using hr
    · rcases get_access_points_trace_legacy aenv c hos with h0 | h1
      · rw [h0] at hr
        simp at hr
      · rw [h1] at hr
        simpa using hr

/-- A connected ControllerOS-mode client used as a concrete fixture. -/
def osClient : UniFiClient :=
  { UniFiClient.init "https://c" none none (some "key") "default" false with
    session := some ⟨[("X-API-KEY", "key")]⟩ }

/-- A concrete successful enumeration environment for clients. -/
def okClientsEnv : ClientsEnv := ⟨some 200, [], .ok []⟩

/-- A concrete successful enumeration environment for devices. -/
def okApsEnv : ApsEnv := ⟨some 200, [], .ok []⟩

theorem protocol_path_selection_witness :
    ∃ tail, Request.get
        ("https://c" ++ "/proxy/network/api/s/" ++ "default" ++ "/stat/sta") =
      Request.get
        ((osClient.host ++ "/proxy/network/api/s/" ++ osClient.site ++ "/") ++ tail) :=
  (protocol_path_selection osClient okClientsEnv okApsEnv rfl).1 rfl
    (Request.get ("https://c" ++ "/proxy/network/api/s/" ++ "default" ++ "/stat/sta"))
    (by
      rw [List.mem_append]
      left
      rcases get_clients_trace_os okClientsEnv osClient rfl with h0 | h1
      · exact absurd h0 (by decide)
      · rw [h1]
        exact List.mem_singleton.2 rfl)

-- Key invariants of the enumeration dictionaries.

/-- Claim C8 counterexample: a raw record whose MAC uses `-` separators is
stored under a key that is lowercased but not canonical (normalizing the
key changes it), refuting the claim that enumeration keys are always in
the canonical colon-separated form. -/
theorem enumeration_keys_counterexample :
    dictKeys (buildClientsDict [{ mac := some "AA-BB-CC-DD-EE-FF" }]) =
      ["aa-bb-cc-dd-ee-ff"] ∧
    normalizeMac "aa-bb-cc-dd-ee-ff" ≠ "aa-bb-cc-dd-ee-ff" := by
  constructor
  · rfl
  · decide

/-- Claim C8 (amended): within one enumeration result of `get_clients` or
`get_access_points`, the MAC keys are unique and lowercased (though not
separator-normalized: a raw MAC with `-` or `.` separators is stored with
those separators kept), and every raw record lacking a usable MAC is
dropped: each key is nonempty and originates from the lowercased MAC of a
kept raw record (for devices, one whose type is `uap`). -/
theorem enumeration_keys_contract (raws : List RawClient) (draws : List RawDevice) :
    (dictKeys (buildClientsDict raws)).Nodup ∧
    (dictKeys (buildApsDict draws)).Nodup ∧
    (∀ k ∈ dictKeys (buildClientsDict raws),
      pyLower k = k ∧ k ≠ "" ∧ ∃ r ∈ raws, pyLower (r.mac.getD "") = k) ∧
    (∀ k ∈ dictKeys (buildApsDict draws),
      pyLower k = k ∧ k ≠ "" ∧
        ∃ r ∈ draws, (r.type_ == some "uap") = true ∧
          pyLower (r.mac.getD "") = k) := by
  refine ⟨clients_foldl_nodup raws [] (by simp [dictKeys]),
    aps_foldl_nodup draws [] (by simp [dictKeys]), ?_, ?_⟩
  · intro k hk
    simp only [dictKeys, List.mem_map] at hk
    obtain ⟨p, hp, hpk⟩ := hk
    rcases clients_foldl_mem raws [] p hp with h0 | ⟨r, hr, hm, hpe⟩
    · simp at h0
    · subst hpe
      simp only at hpk
      subst hpk
      exact ⟨pyLower_idem _, hm, r, hr, rfl⟩
  · intro k hk
    simp only [dictKeys, List.mem_map] at hk
    obtain ⟨p, hp, hpk⟩ := hk
    rcases aps_foldl_mem draws [] p hp with h0 | ⟨r, hr, ht, hm, hpe⟩
    · simp at h0
    · subst hpe
      simp only at hpk
      subst hpk
      exact ⟨pyLower_idem _, hm, r, hr, ht, rfl⟩

-- Rate conversion facts.

theorem pyRoundInt_intCast (n : ℤ) : pyRoundInt (n : ℚ) = n := by
  unfold pyRoundInt
  rw [Int.floor_intCast, sub_self]
  norm_num

theorem rateToMbps_54000 : rateToMbps (some 54000) = some 54 := by
  simp only [rateToMbps, pyRound1]
  rw [if_neg (by norm_num : ¬(54000 : ℚ) = 0)]
  have h1 : (54000 : ℚ) / 1000 * 10 = ((540 : ℤ) : ℚ) := by norm_num
  rw [h1, pyRoundInt_intCast]
  norm_num

/-- A raw record with no rate fields, used as a concrete fixture. -/
def bareRaw : RawClient := { mac := some "aa" }

/-- Claim C4: every record produced by the ControllerOS branch of
`get_clients` carries `tx_rate`/`rx_rate` obtained from the raw
kilobits-per-second values through `rateToMbps` (divide by 1000, round to
one decimal place): a source rate of 54000 yields 54.0, and an absent or
zero source rate yields an explicit `none`, never `0`. -/
theorem rate_conversion_contract (raws : List RawClient) (k : String)
    (rec : ClientRecord) (h : (k, rec) ∈ buildClientsDict raws) :
    (∃ r ∈ raws, rec = rawToClientRecord k r ∧
      rec.tx_rate = rateToMbps r.tx_rate ∧ rec.rx_rate = rateToMbps r.rx_rate) ∧
    rateToMbps (some 54000) = some 54 ∧
    rateToMbps none = none ∧
    rateToMbps (some 0) = none := by
  refine ⟨?_, rateToMbps_54000, rfl, by norm_num [rateToMbps]⟩
  rcases clients_foldl_mem raws [] (k, rec) h with h0 | ⟨r, hr, hm, hpe⟩
  · simp at h0
  · have hk : k = pyLower (r.mac.getD "") := congrArg Prod.fst hpe
    have hrec : rec = rawToClientRecord (pyLower (r.mac.getD "")) r :=
      congrArg Prod.snd hpe
    subst hk
    refine ⟨r, hr, hrec, ?_, ?_⟩
    · rw [hrec]
      rfl
    · rw [hrec]
      rfl

theorem rate_conversion_contract_witness :
    rateToMbps (some 54000) = some 54 ∧
    rateToMbps none = none ∧
    rateToMbps (some 0) = none :=
  (rate_conversion_contract [bareRaw] "aa" (rawToClientRecord "aa" bareRaw)
    (by decide)).2

-- Control Actions: block / unblock.

/-- The station-manager command endpoint, chosen by protocol mode exactly
as the `if self.is_unifi_os` branch in `block_client`/`unblock_client`. -/
def stamgrUrl (c : UniFiClient) : String :=
  if c.is_unifi_os then c.host ++ "/proxy/network/api/s/" ++ c.site ++ "/cmd/stamgr"
  else c.host ++ "/api/s/" ++ c.site ++ "/cmd/stamgr"

/-- Environment oracle for one station-manager command: the HTTP status of
the POST (`none` when the request raised). -/
structure CmdEnv where
  status : Option Nat
deriving DecidableEq

/-- `UniFiClient.block_client`: raises the not-connected guard, POSTs
`{"cmd": "block-sta", "mac": mac.lower()}` to the station-manager
endpoint, returns `true` on status 200 and `false` otherwise (exceptions
during the POST are swallowed into `false`). -/
def UniFiClient.block_client (env : CmdEnv) (c : UniFiClient)
    (mac_address : String) : Except OpError Bool × List Request :=
  if c.session.isNone then (.error .notConnected, [])
  else
    let req := Request.post (stamgrUrl c)
      [("cmd", "block-sta"), ("mac", pyLower mac_address)]
    match env.status with
    | none => (.ok false, [req])
    | some st => (.ok (st == 200), [req])

/-- `UniFiClient.unblock_client`: identical to `block_client` with the
`unblock-sta` command. -/
def UniFiClient.unblock_client (env : CmdEnv) (c : UniFiClient)
    (mac_address : String) : Except OpError Bool × List Request :=
  if c.session.isNone then (.error .notConnected, [])
  else
    let req := Request.post (stamgrUrl c)
      [("cmd", "unblock-sta"), ("mac", pyLower mac_address)]
    match env.status with
    | none => (.ok false, [req])
    | some st => (.ok (st == 200), [req])

-- Control Actions: set_client_name.

/-- One entry of the controller user registry: the registry identifier
`_id`, the MAC and the display name. -/
structure UserEntry where
  uid : Nat
  mac : Option String
  name : Option String
deriving DecidableEq

/-- The `rest/user` endpoint, chosen by protocol mode exactly as in
`set_client_name`. -/
def restUserUrl (c : UniFiClient) : String :=
  if c.is_unifi_os then c.host ++ "/proxy/network/api/s/" ++ c.site ++ "/rest/user"
  else c.host ++ "/api/s/" ++ c.site ++ "/rest/user"

/-- The user search inside `set_client_name`:
`next((u for u in users if u.get('mac', '').lower() == mac_address.lower()), None)`. -/
def findUser (mac_address : String) (users : List UserEntry) : Option UserEntry :=
  users.find? (fun u => pyLower (u.mac.getD "") == pyLower mac_address)

/-- The effect of a successful `PUT rest/user/{id} {"name": name}` on the
registry: the entry with that identifier gets the new name. -/
def applyNameUpdate (uid : Nat) (name : String) (reg : List UserEntry) :
    List UserEntry :=
  reg.map (fun u => if u.uid = uid then { u with name := some name } else u)

/-- Environment oracle for one `set_client_name` call: HTTP statuses of
the registry GET, the targeted PUT and the creating POST (`none` when the
request raised), the registry contents the GET returns, and the fresh
identifier the controller assigns to a created entry. -/
structure UserApiEnv where
  getStatus : Option Nat
  registry : List UserEntry
  putStatus : Option Nat
  postStatus : Option Nat
  freshId : Nat
deriving DecidableEq

/-- `UniFiClient.set_client_name`: raises the not-connected guard, fetches
the registry, searches it by lowercased MAC; when an entry is found it
PUTs the new name at the entry identifier, otherwise it POSTs a new entry
with the lowercased MAC and the name.  Returns `true` only when the write
answered 200; every other outcome (GET not 200, write not 200, any
exception) yields `false`.  Besides the result, the final registry
contents and the request trace are returned. -/
def UniFiClient.set_client_name (env : UserApiEnv) (c : UniFiClient)
    (mac_address name : String) :
    Except OpError Bool × List UserEntry × List Request :=
  if c.session.isNone then (.error .notConnected, env.registry, [])
  else
    let url := restUserUrl c
    match env.getStatus with
    | none => (.ok false, env.registry, [.get url])
    | some gs =>
      if gs ≠ 200 then (.ok false, env.registry, [.get url])
      else
        match findUser mac_address env.registry with
        | some u =>
          let req := Request.put (url ++ "/" ++ toString u.uid) [("name", name)]
          match env.putStatus with
          | none => (.ok false, env.registry, [.get url, req])
          | some ps =>
            if ps = 200 then
              (.ok true, applyNameUpdate u.uid name env.registry, [.get url, req])
            else (.ok false, env.registry, [.get url, req])
        | none =>
          let req := Request.post url
            [("mac", pyLower mac_address), ("name", name)]
          match env.postStatus with
          | none => (.ok false, env.registry, [.get url, req])
          | some ps =>
            if ps = 200 then
              (.ok true,
               env.registry ++ [⟨env.freshId, some (pyLower mac_address), some name⟩],
               [.get url, req])
            else (.ok false, env.registry, [.get url, req])

-- Connectivity Probe.

/-- The structured result of `test_connection`: success with the two
counts and the site, or failure with a diagnostic. -/
inductive TestResult where
  | ok (client_count ap_count : Nat) (site : String)
  | fail (error : String)
deriving DecidableEq

/-- Environment oracle for one `test_connection` call. -/
structure ProbeEnv where
  net : ConnectNet
  clients : ClientsEnv
  aps : ApsEnv

/-- `UniFiClient.test_connection`: connect, then on success enumerate
clients and access points and report the counts and the site; any failure
is swallowed into a failure result carrying the diagnostic; the `finally`
block disconnects on every exit path. -/
def UniFiClient.test_connection (env : ProbeEnv) (c : UniFiClient) :
    TestResult × UniFiClient :=
  let res := c.connect env.net
  let c1 := res.2
  if !res.1 then
    (.fail "Failed to connect to UniFi controller", c1.disconnect)
  else
    match (c1.get_clients env.clients).1 with
    | .error e => (.fail e.message, c1.disconnect)
    | .ok cl =>
      match (c1.get_access_points env.aps).1 with
      | .error e => (.fail e.message, c1.disconnect)
      | .ok aps => (.ok cl.length aps.length c1.site, c1.disconnect)

-- Station commands (block / unblock).

/-- Claim C3 counterexample: for the dash-separated input
`AA-BB-CC-DD-EE-FF`, the station-management payload carries the merely
lowercased MAC `aa-bb-cc-dd-ee-ff`, not the normalized canonical
colon-separated form the claim requires. -/
theorem block_payload_counterexample :
    (osClient.block_client ⟨some 200⟩ "AA-BB-CC-DD-EE-FF").2 =
      [Request.post (stamgrUrl osClient)
        [("cmd", "block-sta"), ("mac", "aa-bb-cc-dd-ee-ff")]] ∧
    "aa-bb-cc-dd-ee-ff" ≠ normalizeMac "AA-BB-CC-DD-EE-FF" := by
  constructor
  · rfl
  · decide

/-- Claim C3 (amended): on a connected client, `block_client` and
`unblock_client` POST the station-management command whose payload MAC is
the lowercased input (separators are kept as given, not replaced by
colons), and each returns `true` exactly when the controller answered the
command with HTTP 200 (any other status, or a raised request, yields
`false`). -/
theorem station_command_contract (env : CmdEnv) (c : UniFiClient)
    (mac : String) (hs : c.session.isNone = false) :
    (c.block_client env mac).2 =
      [Request.post (stamgrUrl c) [("cmd", "block-sta"), ("mac", pyLower mac)]] ∧
    (c.unblock_client env mac).2 =
      [Request.post (stamgrUrl c) [("cmd", "unblock-sta"), ("mac", pyLower mac)]] ∧
    ((c.block_client env mac).1 = Except.ok true ↔ env.status = some 200) ∧
    ((c.unblock_client env mac).1 = Except.ok true ↔ env.status = some 200) := by
  unfold UniFiClient.block_client UniFiClient.unblock_client
  cases henv : env.status with
  | none => simp [hs, henv]
  | some st =>
    by_cases h200 : st = 200 <;> simp [hs, henv, h200]

theorem station_command_contract_witness :
    (osClient.block_client ⟨some 200⟩ "AA-BB-CC-DD-EE-FF").1 = Except.ok true :=
  (station_command_contract ⟨some 200⟩ osClient "AA-BB-CC-DD-EE-FF" rfl).2.2.1.mpr rfl

-- AP name resolution.

/-- A freshly constructed, never-connected client. -/
def freshClient : UniFiClient :=
  UniFiClient.init "https://c" none none (some "key") "default" false

/-- Claim C5 counterexample: when the underlying access-point enumeration
fails (here: the client is not connected, so the fetch raises the
not-connected guard), `get_ap_name_by_mac` returns the raw input MAC
unchanged, not the normalized input MAC the claim requires. -/
theorem ap_name_counterexample :
    freshClient.get_ap_name_by_mac okApsEnv "AA-BB-CC-DD-EE-FF" =
      "AA-BB-CC-DD-EE-FF" ∧
    "AA-BB-CC-DD-EE-FF" ≠ normalizeMac "AA-BB-CC-DD-EE-FF" := by
  constructor
  · rfl
  · decide

/-- Claim C5 (amended): `get_ap_name_by_mac` resolves the label by the
fallback chain name, then model, then the normalized MAC: a found record
with a truthy name returns that name; one whose name is falsy but whose
model is truthy returns the model; one with neither returns the
normalized input MAC; a MAC absent from the enumeration returns the
normalized input MAC; and when the underlying enumeration fails
(including when not connected) the error is caught and the RAW input MAC
is returned as given, rather than the normalized one. -/
theorem ap_name_fallback_contract (env : ApsEnv) (c : UniFiClient)
    (mac : String) :
    ((∃ e, (c.get_access_points env).1 = Except.error e) →
      c.get_ap_name_by_mac env mac = mac) ∧
    (∀ d, (c.get_access_points env).1 = Except.ok d →
      (dictGet (normalizeMac mac) d = none →
        c.get_ap_name_by_mac env mac = normalizeMac mac) ∧
      (∀ ap, dictGet (normalizeMac mac) d = some ap →
        (∀ s, ap.name = some s → s ≠ "" →
          c.get_ap_name_by_mac env mac = s) ∧
        (pyTruthyStr ap.name = false → ∀ m, ap.model = some m → m ≠ "" →
          c.get_ap_name_by_mac env mac = m) ∧
        (pyTruthyStr ap.name = false → pyTruthyStr ap.model = false →
          c.get_ap_name_by_mac env mac = normalizeMac mac))) := by
  constructor
  · rintro ⟨e, he⟩
    unfold UniFiClient.get_ap_name_by_mac
    rw [he]
  · intro d hd
    refine ⟨?_, ?_⟩
    · intro hnone
      unfold UniFiClient.get_ap_name_by_mac
      rw [hd]
      simp only [hnone]
    · intro ap hap
      have hbase : c.get_ap_name_by_mac env mac =
          pyStrOr ap.name (pyStrOr ap.model (normalizeMac mac)) := by
        unfold UniFiClient.get_ap_name_by_mac
        rw [hd]
        simp only [hap]
      refine ⟨?_, ?_, ?_⟩
      · intro s hss hne
        rw [hbase, hss]
        simp [pyStrOr, hne]
      · intro hname m hm hne
        have hfalsy : pyStrOr ap.name (pyStrOr ap.model (normalizeMac mac)) =
            pyStrOr ap.model (normalizeMac mac) := by
          cases hn : ap.name with
          | none => simp [pyStrOr]
          | some s =>
            rw [hn] at hname
            have hse : s = "" := by
              simpa [pyTruthyStr] using hname
            simp [pyStrOr, hse]
        rw [hbase, hfalsy, hm]
        simp [pyStrOr, hne]
      · intro hname hmodel
        have hfalsy : pyStrOr ap.name (pyStrOr ap.model (normalizeMac mac)) =
            pyStrOr ap.model (normalizeMac mac) := by
          cases hn : ap.name with
          | none => simp [pyStrOr]
          | some s =>
            rw [hn] at hname
            have hse : s = "" := by
              simpa [pyTruthyStr] using hname
            simp [pyStrOr, hse]
        have hfalsy2 : pyStrOr ap.model (normalizeMac mac) = normalizeMac mac := by
          cases hn : ap.model with
          | none => simp [pyStrOr]
          | some s =>
            rw [hn] at hmodel
            have hse : s = "" := by
              simpa [pyTruthyStr] using hmodel
            simp [pyStrOr, hse]
        rw [hbase, hfalsy, hfalsy2]

theorem ap_name_fallback_contract_witness :
    freshClient.get_ap_name_by_mac okApsEnv "bb" = "bb" :=
  (ap_name_fallback_contract okApsEnv freshClient "bb").1 ⟨.notConnected, rfl⟩

-- Registry search lemmas.

theorem findUser_applyNameUpdate (m : String) (uid : Nat) (n : String)
    (reg : List UserEntry) :
    (findUser m (applyNameUpdate uid n reg)).isSome = (findUser m reg).isSome := by
  unfold findUser applyNameUpdate
  rw [List.find?_map]
  have hp : ((fun u : UserEntry => pyLower (u.mac.getD "") == pyLower m) ∘
      (fun u : UserEntry => if u.uid = uid then { u with name := some n } else u)) =
      (fun u : UserEntry => pyLower (u.mac.getD "") == pyLower m) := by
    funext u
    by_cases h : u.uid = uid <;> simp [h]
  rw [hp]
  exact Option.isSome_map

theorem findUser_append_created (m : String) (reg : List UserEntry)
    (e : UserEntry) (he : (pyLower (e.mac.getD "") == pyLower m) = true)
    (h : findUser m reg = none) :
    findUser m (reg ++ [e]) = some e := by
  unfold findUser at *
  rw [List.find?_append, h]
  simp [List.find?_cons, he]

theorem pyLower_fresh_entry (mac name : String) (fresh : Nat) :
    (pyLower ((UserEntry.mk fresh (some (pyLower mac)) (some name)).mac.getD "")
      == pyLower mac) = true := by
  simp [pyLower_idem]

-- set_client_name.

/-- A registry holding one entry whose MAC is already in canonical form. -/
def regWithColonMac : List UserEntry := [⟨7, some "aa:bb:cc:dd:ee:ff", none⟩]

/-- A user-registry environment in which every request succeeds. -/
def okUserEnv : UserApiEnv := ⟨some 200, regWithColonMac, some 200, some 200, 8⟩

/-- Claim C6 counterexample: the registry holds an entry whose MAC equals
the normalized input `AA-BB-CC-DD-EE-FF`, yet the search (which only
lowercases, and does not replace `-` by `:`) misses it and the call takes
the create path, growing the registry to two entries instead of updating
the matching one. -/
theorem set_client_name_counterexample :
    regWithColonMac = [⟨7, some (normalizeMac "AA-BB-CC-DD-EE-FF"), none⟩] ∧
    findUser "AA-BB-CC-DD-EE-FF" regWithColonMac = none ∧
    (osClient.set_client_name okUserEnv "AA-BB-CC-DD-EE-FF" "tv").2.1.length = 2 := by
  refine ⟨?_, ?_, ?_⟩
  · rfl
  · rfl
  · rfl

/-- Claim C6 (amended): on a connected client whose registry GET answers
200, `set_client_name` searches the fetched registry for an entry whose
LOWERCASED MAC equals the lowercased input (separators are compared as
given, not normalized to colons); when found it updates that entry by a
targeted PUT at the entry registry identifier, and when absent it POSTs a
new entry carrying the lowercased MAC and the name.  A call grows the
registry by at most one entry, and after a call whose writes succeed, a
second call with the same MAC and name finds the entry and takes the
update path, creating no duplicate. -/
theorem set_client_name_upsert_contract (env : UserApiEnv) (c : UniFiClient)
    (mac name : String) (hs : c.session.isNone = false)
    (hget : env.getStatus = some 200) :
    (∀ u, findUser mac env.registry = some u →
      (c.set_client_name env mac name).2.2 =
        [.get (restUserUrl c),
         .put (restUserUrl c ++ "/" ++ toString u.uid) [("name", name)]] ∧
      (c.set_client_name env mac name).2.1.length = env.registry.length) ∧
    (findUser mac env.registry = none →
      (c.set_client_name env mac name).2.2 =
        [.get (restUserUrl c),
         .post (restUserUrl c) [("mac", pyLower mac), ("name", name)]] ∧
      (env.postStatus = some 200 →
        (c.set_client_name env mac name).2.1 =
          env.registry ++ [⟨env.freshId, some (pyLower mac), some name⟩])) ∧
    (c.set_client_name env mac name).2.1.length ≤ env.registry.length + 1 ∧
    (env.postStatus = some 200 →
      (findUser mac (c.set_client_name env mac name).2.1).isSome = true ∧
      ∀ env2 : UserApiEnv, env2.getStatus = some 200 →
        env2.registry = (c.set_client_name env mac name).2.1 →
        (c.set_client_name env2 mac name).2.1.length = env2.registry.length) := by
  have hmain : ∀ (e : UserApiEnv), e.getStatus = some 200 →
      (∀ u, findUser mac e.registry = some u →
        (c.set_client_name e mac name).2.2 =
          [.get (restUserUrl c),
           .put (restUserUrl c ++ "/" ++ toString u.uid) [("name", name)]] ∧
        ((c.set_client_name e mac name).2.1 = e.registry ∨
         (c.set_client_name e mac name).2.1 =
           applyNameUpdate u.uid name e.registry)) ∧
      (findUser mac e.registry = none →
        (c.set_client_name e mac name).2.2 =
          [.get (restUserUrl c),
           .post (restUserUrl c) [("mac", pyLower mac), ("name", name)]] ∧
        ((e.postStatus = some 200 →
          (c.set_client_name e mac name).2.1 =
            e.registry ++ [⟨e.freshId, some (pyLower mac), some name⟩]) ∧
         (e.postStatus ≠ some 200 →
          (c.set_client_name e mac name).2.1 = e.registry))) := by
    intro e he
    unfold UniFiClient.set_client_name
    constructor
    · intro u hu
      rw [hu]
      cases hput : e.putStatus with
      | none => simp [hs, he, hput]
      | some ps =>
        by_cases hps : ps = 200
        · simp [hs, he, hput, hps]
        · simp [hs, he, hput, hps]
    · intro hu
      rw [hu]
      cases hpost : e.postStatus with
      | none => simp [hs, he, hpost]
      | some ps =>
        by_cases hps : ps = 200
        · simp [hs, he, hpost, hps]
        · simp [hs, he, hpost, hps]
  have hupdate_len : ∀ u, findUser mac env.registry = some u →
      (c.set_client_name env mac name).2.1.length = env.registry.length := by
    intro u hu
    rcases ((hmain env hget).1 u hu).2 with h | h
    · rw [h]
    · rw [h]
      unfold applyNameUpdate
      exact List.length_map _ _
  refine ⟨?_, ?_, ?_, ?_⟩
  · intro u hu
    exact ⟨((hmain env hget).1 u hu).1, hupdate_len u hu⟩
  · intro hu
    exact ⟨((hmain env hget).2 hu).1, fun hp => (((hmain env hget).2 hu).2).1 hp⟩
  · cases hfind : findUser mac env.registry with
    | some u =>
      rw [hupdate_len u hfind]
      omega
    | none =>
      by_cases hp : env.postStatus = some 200
      · rw [(((hmain env hget).2 hfind).2).1 hp]
        simp
      · rw [(((hmain env hget).2 hfind).2).2 hp]
        omega
  · intro hpost
    have hsome : (findUser mac (c.set_client_name env mac name).2.1).isSome = true := by
      cases hfind : findUser mac env.registry with
      | some u =>
        rcases ((hmain env hget).1 u hfind).2 with h | h
        · rw [h, hfind]
          rfl
        · rw [h, findUser_applyNameUpdate, hfind]
          rfl
      | none =>
        rw [(((hmain env hget).2 hfind).2).1 hpost]
        rw [findUser_append_created mac env.registry _
          (pyLower_fresh_entry mac name env.freshId) hfind]
        rfl
    refine ⟨hsome, ?_⟩
    intro env2 hget2 hreg2
    obtain ⟨u2, hu2⟩ := Option.isSome_iff_exists.1 (hreg2 ▸ hsome)
    have := hmain env2 hget2
    rcases (this.1 u2 hu2).2 with h | h
    · rw [h]
    · rw [h]
      unfold applyNameUpdate
      exact List.length_map _ _

theorem set_client_name_upsert_contract_witness :
    (osClient.set_client_name okUserEnv "AA-BB-CC-DD-EE-FF" "tv").2.1.length ≤
      regWithColonMac.length + 1 :=
  (set_client_name_upsert_contract okUserEnv osClient "AA-BB-CC-DD-EE-FF" "tv"
    rfl rfl).2.2.1

-- Connectivity probe.

theorem connect_site (net : ConnectNet) (c : UniFiClient) :
    (c.connect net).2.site = c.site := by
  unfold UniFiClient.connect UniFiClient.disconnect
  cases hos : c.is_unifi_os
  · cases hlog : net.legacyLoginOk <;> simp [hos, hlog]
  · cases hst : net.osProbeStatus with
    | none => simp [hos, hst]
    | some st => by_cases h2 : st = 200 <;> simp [hos, hst, h2]

/-- Claim C7: `test_connection` disconnects the session (and the
controller reference) on every exit path, never lets an exception escape,
and returns either a success result carrying the enumerated client count,
access-point count and the site identifier, or a failure result carrying
a diagnostic message. -/
theorem test_connection_contract (env : ProbeEnv) (c : UniFiClient) :
    (c.test_connection env).2.session = none ∧
    (c.test_connection env).2.controller = none ∧
    ((∃ msg, (c.test_connection env).1 = TestResult.fail msg) ∨
      (∃ cl aps,
        ((c.connect env.net).2.get_clients env.clients).1 = Except.ok cl ∧
        ((c.connect env.net).2.get_access_points env.aps).1 = Except.ok aps ∧
        (c.test_connection env).1 = TestResult.ok cl.length aps.length c.site)) := by
  unfold UniFiClient.test_connection
  cases hb : (c.connect env.net).1 with
  | false =>
    refine ⟨by simp [hb, UniFiClient.disconnect], by simp [hb, UniFiClient.disconnect], ?_⟩
    left
    exact ⟨"Failed to connect to UniFi controller", by simp [hb]⟩
  | true =>
    cases hcl : ((c.connect env.net).2.get_clients env.clients).1 with
    | error e =>
      refine ⟨by simp [hb, hcl, UniFiClient.disconnect],
        by simp [hb, hcl, UniFiClient.disconnect], ?_⟩
      left
      exact ⟨e.message, by simp [hb, hcl]⟩
    | ok cl =>
      cases haps : ((c.connect env.net).2.get_access_points env.aps).1 with
      | error e =>
        refine ⟨by simp [hb, hcl, haps, UniFiClient.disconnect],
          by simp [hb, hcl, haps, UniFiClient.disconnect], ?_⟩
        left
        exact ⟨e.message, by simp [hb, hcl, haps]⟩
      | ok aps =>
        refine ⟨by simp [hb, hcl, haps, UniFiClient.disconnect],
          by simp [hb, hcl, haps, UniFiClient.disconnect], ?_⟩
        right
        exact ⟨cl, aps, rfl, rfl, by simp [hb, hcl, haps, connect_site]⟩

-- API-key precedence.

/-- Claim C10: when a client is constructed with both an API key and
username/password credentials, the API key wins: the protocol flag is
determined solely by the presence of the API key, `connect` behaves
identically whatever username/password were stored (they are never used;
no aiounifi controller is ever created), and the write endpoints resolve
to ControllerOS paths. -/
theorem api_key_precedence (host : String) (u p k : Option String)
    (site : String) (ssl : Bool) (net : ConnectNet) (hk : k.isSome = true) :
    (UniFiClient.init host u p k site ssl).is_unifi_os = true ∧
    (∀ u2 p2 : Option String,
      (UniFiClient.connect net (UniFiClient.init host u2 p2 k site ssl)).1 =
        (UniFiClient.connect net (UniFiClient.init host u p k site ssl)).1 ∧
      (UniFiClient.connect net (UniFiClient.init host u2 p2 k site ssl)).2.session =
        (UniFiClient.connect net (UniFiClient.init host u p k site ssl)).2.session) ∧
    (UniFiClient.connect net (UniFiClient.init host u p k site ssl)).2.controller =
      none ∧
    stamgrUrl (UniFiClient.init host u p k site ssl) =
      host ++ "/proxy/network/api/s/" ++ site ++ "/cmd/stamgr" ∧
    restUserUrl (UniFiClient.init host u p k site ssl) =
      host ++ "/proxy/network/api/s/" ++ site ++ "/rest/user" := by
  refine ⟨hk, ?_, ?_, ?_, ?_⟩
  · intro u2 p2
    unfold UniFiClient.connect UniFiClient.disconnect
    cases hst : net.osProbeStatus with
    | none => simp [UniFiClient.init, hk, hst]
    | some st => by_cases h2 : st = 200 <;> simp [UniFiClient.init, hk, hst, h2]
  · unfold UniFiClient.connect UniFiClient.disconnect
    cases hst : net.osProbeStatus with
    | none => simp [UniFiClient.init, hk, hst]
    | some st => by_cases h2 : st = 200 <;> simp [UniFiClient.init, hk, hst, h2]
  · unfold stamgrUrl
    simp [UniFiClient.init, hk]
  · unfold restUserUrl
    simp [UniFiClient.init, hk]

theorem api_key_precedence_witness :
    (UniFiClient.connect ⟨some 200, true⟩
      (UniFiClient.init "https://c" (some "admin") (some "pw") (some "key")
        "default" false)).2.controller = none :=
  (api_key_precedence "https://c" (some "admin") (some "pw") (some "key")
    "default" false ⟨some 200, true⟩ rfl).2.2.1
